import Mathlib

/-!
Shallow embedding of the `@peleke.s/interoception` coherence-sensing library.

The scalar type of the aggregation pipeline is kept generic over a linear
ordered field `K` (instantiated at `ℚ` for executable witnesses and at `ℝ`
where the built-in metrics, which use `Math.sqrt`, are involved).  JS `number`
arithmetic is modelled exactly by field arithmetic; the claims under study do
not depend on rounding behaviour.
-/

set_option autoImplicit false

namespace Interoception

/-- Embedding vectors are plain lists of scalars (source type `number[]`). -/
abbrev Vec (K : Type) := List K

/-! ## Vector math utilities (`metrics/util.ts`) -/

/-- Exact value of `dot(a, b)` on well-formed inputs (`a` no longer than
`b`).  The source loops over `a`'s indices, so when `a` is longer than `b`
it reads `b[i]` as `undefined` and the sum becomes NaN; that case is
modelled faithfully by `jsDot` below (`jsDot_of_le` relates the two). -/
def dot (a b : Vec ℝ) : ℝ := (List.zipWith (fun x y => x * y) a b).sum

/-- `magnitude(v) = Math.sqrt(dot(v, v))`. -/
noncomputable def magnitude (v : Vec ℝ) : ℝ := Real.sqrt (dot v v)

/-- `cosineSimilarity(a, b)`: returns 0 if either magnitude is 0, otherwise
`dot(a, b) / (magA * magB)`. -/
noncomputable def cosineSimilarity (a b : Vec ℝ) : ℝ :=
  if magnitude a = 0 ∨ magnitude b = 0 then 0
  else dot a b / (magnitude a * magnitude b)

variable {K : Type}

/-- `clamp01(v) = Math.max(0, Math.min(1, v))`. -/
def clamp01 [LinearOrder K] [Zero K] [One K] (v : K) : K := max 0 (min 1 v)

/-- `mean(values)`: arithmetic mean, 0 for the empty list (explicit guard in
the source). -/
def mean [DivisionRing K] (values : List K) : K :=
  if values.length = 0 then 0 else values.sum / (values.length : K)

/-- `Math.max(...sims)` over a list.  The source only ever applies it to
non-empty lists (guarded by the metrics' emptiness checks); the `[]` branch
here is unreachable junk. -/
def listMax [LinearOrder K] [Zero K] : List K → K
  | [] => 0
  | x :: xs => xs.foldl max x

/-- All unordered pairs `(l[i], l[j])` with `i < j`, in the nested-loop order
of the source. -/
def allPairs {α : Type} : List α → List (α × α)
  | [] => []
  | x :: xs => (xs.map (fun y => (x, y))) ++ allPairs xs

/-! ## Built-in metric computations -/

/-- `computeGoalDrift` (`metrics/goal-drift.ts`): 0 when either list is
empty; otherwise, for each context embedding take its max similarity to any
goal, and return `clamp01(1 - mean(sims))`. -/
noncomputable def computeGoalDrift (goalEmbeddings contextEmbeddings : List (Vec ℝ)) : ℝ :=
  if goalEmbeddings.length = 0 ∨ contextEmbeddings.length = 0 then 0
  else
    clamp01 (1 - mean (contextEmbeddings.map (fun ctx =>
      listMax (goalEmbeddings.map (fun goal => cosineSimilarity goal ctx)))))

/-- `computeMemoryRetention` (`metrics/memory-retention.ts`): 0 when either
list is empty; otherwise mean over goals of the max similarity to any
memory, clamped. -/
noncomputable def computeMemoryRetention (goalEmbeddings memoryEmbeddings : List (Vec ℝ)) : ℝ :=
  if goalEmbeddings.length = 0 ∨ memoryEmbeddings.length = 0 then 0
  else
    clamp01 (mean (goalEmbeddings.map (fun goal =>
      listMax (memoryEmbeddings.map (fun mem => cosineSimilarity goal mem)))))

/-- `computeContradictionPressure` (`metrics/contradiction-pressure.ts`):
0 when fewer than two context embeddings; otherwise the fraction of pairs
with similarity below the threshold, clamped.  The source's default
threshold is 0.3. -/
noncomputable def computeContradictionPressure
    (contextEmbeddings : List (Vec ℝ)) (threshold : ℝ) : ℝ :=
  if contextEmbeddings.length < 2 then 0
  else
    let pairs := allPairs contextEmbeddings
    let lowSimPairs := (pairs.filter (fun p => cosineSimilarity p.1 p.2 < threshold)).length
    clamp01 ((lowSimPairs : ℝ) / (pairs.length : ℝ))

/-- `computeSemanticDiffusion` (`metrics/semantic-diffusion.ts`): 0 when
fewer than two context embeddings; otherwise the clamped mean pairwise
distance `1 - sim`. -/
noncomputable def computeSemanticDiffusion (contextEmbeddings : List (Vec ℝ)) : ℝ :=
  if contextEmbeddings.length < 2 then 0
  else
    clamp01 (mean ((allPairs contextEmbeddings).map
      (fun p => 1 - cosineSimilarity p.1 p.2)))

/-! ## Faithful JS-number semantics of the vector utilities

The definitions above use exact real arithmetic and are the restriction of
the source to well-formed inputs.  JS `number` computations can instead
produce a non-finite value: `util.ts`'s `dot` loops over `a`'s indices, so
`a` longer than `b` reads `b[i]` as `undefined` and NaN-poisons the sum.
Below, a JS numeric result is `Option ℝ`, with `none` standing for any
non-finite value (NaN or ±Infinity); the `js`-prefixed functions are the
faithful translations, and the agreement lemmas (`jsCosineSimilarity_eq`
and the metric-level ones) show the exact-real versions agree with them on
dimension-uniform inputs. -/

/-- JS `+` with non-finite propagation. -/
def jsAdd (a b : Option ℝ) : Option ℝ := a.bind (fun x => b.map (fun y => x + y))

/-- JS `-` with non-finite propagation. -/
def jsSub (a b : Option ℝ) : Option ℝ := a.bind (fun x => b.map (fun y => x - y))

/-- JS `*` with non-finite propagation. -/
def jsMul (a b : Option ℝ) : Option ℝ := a.bind (fun x => b.map (fun y => x * y))

/-- JS `/`: non-finite operands propagate, and a zero divisor yields a
non-finite result (±Infinity, or NaN for 0/0). -/
noncomputable def jsDiv (a b : Option ℝ) : Option ℝ :=
  a.bind (fun x => b.bind (fun y => if y = 0 then none else some (x / y)))

/-- JS `Math.max` of two values: NaN-poisoning. -/
def jsMax2 (a b : Option ℝ) : Option ℝ := a.bind (fun x => b.map (fun y => max x y))

/-- JS `x < t`: any comparison against NaN is false. -/
noncomputable def jsLtBool (a : Option ℝ) (t : ℝ) : Bool :=
  match a with
  | some x => decide (x < t)
  | none => false

/-- The `reduce`-style sum in `mean`: one NaN poisons the total. -/
def jsSum : List (Option ℝ) → Option ℝ
  | [] => some 0
  | x :: xs => jsAdd x (jsSum xs)

/-- `util.ts` `mean` under JS semantics: 0 for the empty list, else the
poisoning sum over the (non-zero) length. -/
noncomputable def jsMean (values : List (Option ℝ)) : Option ℝ :=
  if values.length = 0 then some 0
  else jsDiv (jsSum values) (some (values.length : ℝ))

/-- `Math.max(...sims)` under JS semantics: `Math.max()` of no arguments is
-Infinity (non-finite), and NaN poisons. -/
def jsListMax : List (Option ℝ) → Option ℝ
  | [] => none
  | x :: xs => xs.foldl jsMax2 x

/-- `Math.max(0, Math.min(1, v))` under JS semantics: clamping a non-finite
NaN stays NaN. -/
def jsClamp01 : Option ℝ → Option ℝ
  | some x => some (max 0 (min 1 x))
  | none => none

/-- `util.ts` `dot`, faithfully: the loop runs over `a`'s indices, so when
`a` is longer than `b` the read `b[i]` is `undefined` and the sum is NaN. -/
def jsDot : Vec ℝ → Vec ℝ → Option ℝ
  | [], _ => some 0
  | _ :: _, [] => none
  | x :: a, y :: b => (jsDot a b).map (fun s => x * y + s)

/-- `util.ts` `magnitude` under JS semantics. -/
noncomputable def jsMagnitude (v : Vec ℝ) : Option ℝ := (jsDot v v).map Real.sqrt

/-- `util.ts` `cosineSimilarity` under JS semantics: the `=== 0` guards are
false for NaN magnitudes, so a NaN dot product flows into the quotient. -/
noncomputable def jsCosineSimilarity (a b : Vec ℝ) : Option ℝ :=
  if jsMagnitude a = some 0 ∨ jsMagnitude b = some 0 then some 0
  else jsDiv (jsDot a b) (jsMul (jsMagnitude a) (jsMagnitude b))

/-- `computeGoalDrift` under JS semantics. -/
noncomputable def jsComputeGoalDrift (goalEmbeddings contextEmbeddings : List (Vec ℝ)) :
    Option ℝ :=
  if goalEmbeddings.length = 0 ∨ contextEmbeddings.length = 0 then some 0
  else
    jsClamp01 (jsSub (some 1) (jsMean (contextEmbeddings.map (fun ctx =>
      jsListMax (goalEmbeddings.map (fun goal => jsCosineSimilarity goal ctx))))))

/-- `computeMemoryRetention` under JS semantics. -/
noncomputable def jsComputeMemoryRetention (goalEmbeddings memoryEmbeddings : List (Vec ℝ)) :
    Option ℝ :=
  if goalEmbeddings.length = 0 ∨ memoryEmbeddings.length = 0 then some 0
  else
    jsClamp01 (jsMean (goalEmbeddings.map (fun goal =>
      jsListMax (memoryEmbeddings.map (fun mem => jsCosineSimilarity goal mem)))))

/-- `computeContradictionPressure` under JS semantics: `sim < threshold` is
false when `sim` is NaN, so NaN pairs are silently not counted. -/
noncomputable def jsComputeContradictionPressure
    (contextEmbeddings : List (Vec ℝ)) (threshold : ℝ) : Option ℝ :=
  if contextEmbeddings.length < 2 then some 0
  else
    let pairs := allPairs contextEmbeddings
    let lowSimPairs :=
      (pairs.filter (fun p => jsLtBool (jsCosineSimilarity p.1 p.2) threshold)).length
    jsClamp01 (jsDiv (some (lowSimPairs : ℝ)) (some (pairs.length : ℝ)))

/-- `computeSemanticDiffusion` under JS semantics. -/
noncomputable def jsComputeSemanticDiffusion (contextEmbeddings : List (Vec ℝ)) : Option ℝ :=
  if contextEmbeddings.length < 2 then some 0
  else
    jsClamp01 (jsMean ((allPairs contextEmbeddings).map
      (fun p => jsSub (some 1) (jsCosineSimilarity p.1 p.2))))

/-! ## Aggregation (`metrics/coherence-index.ts`) -/

/-- `MetricSnapshot`: insertion-ordered name→value writes; a later write for
the same name overrides an earlier one (JS object assignment), which
`snapLookup` reproduces by searching from the right. -/
abbrev MetricSnapshot (K : Type) := List (String × K)

/-- `MetricWeights`: `Object.entries(weights)` as an ordered list; `none`
models a key explicitly present with value `undefined`. -/
abbrev MetricWeights (K : Type) := List (String × Option K)

/-- JS object property lookup on a snapshot: the value of the last write for
that name, if any. -/
def snapLookup (metrics : MetricSnapshot K) (key : String) : Option K :=
  (metrics.reverse.find? (fun p => p.1 == key)).map Prod.snd

/-- `DEFAULT_INVERTED`: the legacy inverted-name set. -/
def DEFAULT_INVERTED : List String :=
  ["goalDrift", "contradictionPressure", "semanticDiffusion"]

/-- `DEFAULT_WEIGHTS`: equal weights of 0.25 across the four core metrics. -/
def DEFAULT_WEIGHTS [DivisionRing K] : MetricWeights K :=
  [("goalDrift", some (1 / 4)), ("memoryRetention", some (1 / 4)),
   ("contradictionPressure", some (1 / 4)), ("semanticDiffusion", some (1 / 4))]

/-- The accumulation loop of `computeCoherenceIndex`: returns
`(weightedSum, totalWeight)` over the weight entries, skipping `undefined`
and zero weights and names absent from the snapshot, and inverting the
contribution of names in the inverted set. -/
def coherenceFold [LinearOrderedField K] [DecidableEq K] (metrics : MetricSnapshot K)
    (invertedMetrics : List String) : MetricWeights K → K × K
  | [] => (0, 0)
  | (key, w) :: rest =>
    let acc := coherenceFold metrics invertedMetrics rest
    match w with
    | none => acc
    | some weight =>
      if weight = 0 then acc
      else
        match snapLookup metrics key with
        | none => acc
        | some value =>
          let coherenceValue := if key ∈ invertedMetrics then 1 - value else value
          (acc.1 + coherenceValue * weight, acc.2 + weight)

/-- `computeCoherenceIndex(metrics, weights, invertedMetrics)`: 1 when the
total selected weight is 0, else the clamped weighted average. -/
def computeCoherenceIndex [LinearOrderedField K] [DecidableEq K] (metrics : MetricSnapshot K)
    (weights : MetricWeights K) (invertedMetrics : List String) : K :=
  let acc := coherenceFold metrics invertedMetrics weights
  if acc.2 = 0 then 1 else clamp01 (acc.1 / acc.2)

/-! ## Band classification -/

/-- The four severity bands. -/
inductive Band : Type
  | green
  | yellow
  | orange
  | red
deriving DecidableEq, Repr

/-- `BandThresholds`. -/
structure BandThresholds (K : Type) : Type where
  green : K
  yellow : K
  orange : K
deriving DecidableEq, Repr

/-- `DEFAULT_THRESHOLDS`: 0.8 / 0.6 / 0.4. -/
def DEFAULT_THRESHOLDS [DivisionRing K] : BandThresholds K :=
  ⟨8 / 10, 6 / 10, 4 / 10⟩

/-- `classifyBand`: ordered threshold comparison, green down to red. -/
def classifyBand [LinearOrder K] (coherenceIndex : K) (thresholds : BandThresholds K) : Band :=
  if thresholds.green ≤ coherenceIndex then .green
  else if thresholds.yellow ≤ coherenceIndex then .yellow
  else if thresholds.orange ≤ coherenceIndex then .orange
  else .red

/-! ## Metric strategy types (`types.ts`) -/

/-- `MetricInput`: the four parallel embedding lists handed to vector
metrics. -/
structure MetricInput (K : Type) : Type where
  goalEmbeddings : List (Vec K)
  contextEmbeddings : List (Vec K)
  memoryEmbeddings : List (Vec K)
  goalRelevantMemoryEmbeddings : List (Vec K)

/-- `MetricFn`: a vector metric descriptor.  `inverted` is the optional
tri-state polarity flag (`none` = no declaration). -/
structure MetricFn (K : Type) : Type where
  name : String
  inverted : Option Bool
  compute : MetricInput K → K

/-- Collaborator errors are opaque; identity is all the claims need. -/
abbrev Err : Type := String

/-- `ScalarMetricFn`: a scalar metric descriptor; its async `compute()` is
modelled by its resolved-or-rejected outcome. -/
structure ScalarMetricFn (K : Type) : Type where
  name : String
  inverted : Option Bool
  compute : Except Err K

/-- `goalDriftMetric` — declares no polarity flag in the source. -/
noncomputable def goalDriftMetric : MetricFn ℝ :=
  ⟨"goalDrift", none,
    fun input => computeGoalDrift input.goalEmbeddings input.contextEmbeddings⟩

/-- `memoryRetentionMetric` — declares no polarity flag in the source. -/
noncomputable def memoryRetentionMetric : MetricFn ℝ :=
  ⟨"memoryRetention", none,
    fun input => computeMemoryRetention input.goalEmbeddings input.goalRelevantMemoryEmbeddings⟩

/-- `contradictionPressureMetric` — the only built-in that declares
`inverted: true`; calls the computation with the default threshold 0.3. -/
noncomputable def contradictionPressureMetric : MetricFn ℝ :=
  ⟨"contradictionPressure", some true,
    fun input => computeContradictionPressure input.contextEmbeddings (3 / 10)⟩

/-- `semanticDiffusionMetric` — declares no polarity flag in the source. -/
noncomputable def semanticDiffusionMetric : MetricFn ℝ :=
  ⟨"semanticDiffusion", none,
    fun input => computeSemanticDiffusion input.contextEmbeddings⟩

/-- `DEFAULT_METRICS`: the four core metrics, in source order. -/
noncomputable def DEFAULT_METRICS : List (MetricFn ℝ) :=
  [goalDriftMetric, memoryRetentionMetric, contradictionPressureMetric, semanticDiffusionMetric]

/-! ## Sensor model (`sensor.ts`)

One `measure()` call is a pure function of the per-call collaborator
behaviour (`SensorEnv`), the construction-time configuration
(`SensorOptions`), the tick, and the current history buffer.  Effects are
made observable: `Except` models promise rejection, and the result carries a
log of `embedBatch` invocations and callback invocations. -/

/-- A tick from the external clock. -/
structure Tick : Type where
  ts : Int
  seq : Nat
deriving DecidableEq, Repr

/-- One completed reading. -/
structure CoherenceReading (K : Type) : Type where
  ts : Int
  tickSeq : Nat
  metrics : MetricSnapshot K
  coherenceIndex : K
  band : Band
deriving DecidableEq, Repr

/-- Construction-time configuration of the sensor (defaults resolved). -/
structure SensorOptions (K : Type) : Type where
  metrics : List (MetricFn K)
  scalarMetrics : List (ScalarMetricFn K)
  weights : MetricWeights K
  thresholds : BandThresholds K
  hasOnReading : Bool
  historySize : Nat

/-- Per-call behaviour of the external collaborators: the four state
accessors, the batch embedder, and the notification callback. -/
structure SensorEnv (K : Type) : Type where
  goals : Except Err (List String)
  recentContext : Except Err (List String)
  goalRelevantMemories : Except Err (List String)
  allMemories : Except Err (List String)
  embedBatch : List String → Except Err (List (Vec K))
  onReadingResult : CoherenceReading K → Except Err Unit

/-- Outcome of one `measure()` call: its result, the history buffer
afterwards, and the logged collaborator invocations. -/
structure MeasureResult (K : Type) : Type where
  result : Except Err (CoherenceReading K)
  readings : List (CoherenceReading K)
  embedCalls : List (List String)
  callbackCalls : List (CoherenceReading K)

/-- `[...new Set(allTexts)]`: insertion-order deduplication keeping first
occurrences. -/
def jsSetDedup (l : List String) : List String :=
  l.foldl (fun acc x => if x ∈ acc then acc else acc ++ [x]) []

/-- `embeddingMap.get(t) ?? []`: the vector for a text, or the empty vector
when absent.  Keys in the map are unique, so the first match is the only
one. -/
def lookupVec (embeddingMap : List (String × Vec K)) (t : String) : Vec K :=
  ((embeddingMap.find? (fun p => p.1 == t)).map Prod.snd).getD []

/-- The `MetricInput` construction in `measure` (source lines 104–112):
each original list is mapped positionally through the lookup. -/
def buildMetricInput (embeddingMap : List (String × Vec K))
    (goals context goalRelevantMemories allMemories : List String) : MetricInput K :=
  ⟨goals.map (lookupVec embeddingMap), context.map (lookupVec embeddingMap),
   allMemories.map (lookupVec embeddingMap), goalRelevantMemories.map (lookupVec embeddingMap)⟩

/-- `Promise.all` over the scalar metrics: all results, or the failure of
any one of them (partial results discarded). -/
def runScalars (scalarMetrics : List (ScalarMetricFn K)) : Except Err (MetricSnapshot K) :=
  scalarMetrics.mapM (fun m => m.compute.map (fun v => (m.name, v)))

/-- `anyDeclared` (source lines 137–138): whether any active descriptor
explicitly sets its polarity flag. -/
def anyDeclaredPolarity (metrics : List (MetricFn K))
    (scalarMetrics : List (ScalarMetricFn K)) : Bool :=
  metrics.any (fun m => m.inverted.isSome) || scalarMetrics.any (fun m => m.inverted.isSome)

/-- The inverted-set construction of `measure` (source lines 140–148):
declared mode collects the names whose flag is `true`; legacy mode falls
back to `DEFAULT_INVERTED`. -/
def resolveInvertedSet (metrics : List (MetricFn K))
    (scalarMetrics : List (ScalarMetricFn K)) : List String :=
  if anyDeclaredPolarity metrics scalarMetrics then
    (metrics.filter (fun m => m.inverted == some true)).map (fun m => m.name)
      ++ (scalarMetrics.filter (fun m => m.inverted == some true)).map (fun m => m.name)
  else DEFAULT_INVERTED

/-- The ring-buffer step (source lines 163–166): push, then shift once if
the capacity is exceeded. -/
def jsRecord {α : Type} (buf : List α) (r : α) (cap : Nat) : List α :=
  let pushed := buf ++ [r]
  if cap < pushed.length then pushed.tail else pushed

/-- `history(n?)` (source lines 176–179): `[...readings].reverse()` without
an argument, `readings.slice(-n).reverse()` with one.  JS `slice(-0)` is
`slice(0)`, i.e. the whole buffer. -/
def jsHistory {α : Type} (readings : List α) : Option Nat → List α
  | none => readings.reverse
  | some n => (if n = 0 then readings else readings.drop (readings.length - n)).reverse

/-- Steps 1–5 of one `measure(tick)` call (source lines 81–160): state
fetch, deduplicated embedding, vector and scalar metrics, polarity
resolution, aggregation, band classification, reading assembly.  Returns
the reading (or the first propagated failure) together with the log of
`embedBatch` invocations. -/
def measureCore [LinearOrderedField K] [DecidableEq K] (opts : SensorOptions K)
    (env : SensorEnv K) (tick : Tick) :
    Except Err (CoherenceReading K) × List (List String) :=
  match env.goals with
  | .error e => (.error e, [])
  | .ok goals =>
  match env.recentContext with
  | .error e => (.error e, [])
  | .ok context =>
  match env.goalRelevantMemories with
  | .error e => (.error e, [])
  | .ok goalRelevantMemories =>
  match env.allMemories with
  | .error e => (.error e, [])
  | .ok allMemories =>
  let allTexts := goals ++ context ++ goalRelevantMemories ++ allMemories
  let uniqueTexts := jsSetDedup allTexts
  let embedStep : Except Err (List (String × Vec K)) × List (List String) :=
    if uniqueTexts.length = 0 then (.ok [], [])
    else ((env.embedBatch uniqueTexts).map (fun embeddings => uniqueTexts.zip embeddings),
          [uniqueTexts])
  match embedStep with
  | (.error e, calls) => (.error e, calls)
  | (.ok embeddingMap, calls) =>
  let input := buildMetricInput embeddingMap goals context goalRelevantMemories allMemories
  let vectorSnapshot : MetricSnapshot K :=
    opts.metrics.map (fun m => (m.name, m.compute input))
  match runScalars opts.scalarMetrics with
  | .error e => (.error e, calls)
  | .ok scalarSnapshot =>
  let snapshot := vectorSnapshot ++ scalarSnapshot
  let invertedSet := resolveInvertedSet opts.metrics opts.scalarMetrics
  let coherenceIndex := computeCoherenceIndex snapshot opts.weights invertedSet
  let band := classifyBand coherenceIndex opts.thresholds
  (.ok ⟨tick.ts, tick.seq, snapshot, coherenceIndex, band⟩, calls)

/-- One `measure(tick)` call (source lines 81–174): the pipeline above,
then ring-buffer recording (step 6, before the callback) and the optional
notification callback (step 7), whose failure propagates. -/
def measure [LinearOrderedField K] [DecidableEq K] (opts : SensorOptions K) (env : SensorEnv K)
    (tick : Tick) (readings0 : List (CoherenceReading K)) : MeasureResult K :=
  match measureCore opts env tick with
  | (.error e, calls) => ⟨.error e, readings0, calls, []⟩
  | (.ok reading, calls) =>
    let newReadings := jsRecord readings0 reading opts.historySize
    if opts.hasOnReading then
      match env.onReadingResult reading with
      | .error e => ⟨.error e, newReadings, calls, [reading]⟩
      | .ok _ => ⟨.ok reading, newReadings, calls, [reading]⟩
    else ⟨.ok reading, newReadings, calls, []⟩

/-- A sequence of `measure()` calls threading the history buffer. -/
def runMeasures [LinearOrderedField K] [DecidableEq K] (opts : SensorOptions K) :
    List (SensorEnv K × Tick) → List (CoherenceReading K) → List (CoherenceReading K)
  | [], buf => buf
  | (env, tick) :: rest, buf => runMeasures opts rest (measure opts env tick buf).readings

/-- Transcription of the claim's (and spec §4.4's) description of the
aggregation loop, for comparison with `computeCoherenceIndex`: the selected
(contribution, weight) pairs, skipping entries with undefined or zero
weight and entries absent from the snapshot, inverting contributions for
names in the inverted set. -/
def selectedContributions [LinearOrderedField K] [DecidableEq K] (metrics : MetricSnapshot K)
    (invertedMetrics : List String) (weights : MetricWeights K) : List (K × K) :=
  weights.filterMap (fun kw =>
    match kw.2 with
    | none => none
    | some w =>
      if w = 0 then none
      else
        match snapLookup metrics kw.1 with
        | none => none
        | some v => some ((if kw.1 ∈ invertedMetrics then 1 - v else v), w))

/-- Transcription of the claim's description of the aggregation result:
1 when the total selected weight is 0, otherwise the weighted sum divided
by the total weight, clamped to [0, 1]. -/
def coherenceIndexSpec [LinearOrderedField K] [DecidableEq K] (metrics : MetricSnapshot K)
    (weights : MetricWeights K) (invertedMetrics : List String) : K :=
  let entries := selectedContributions metrics invertedMetrics weights
  let totalWeight := (entries.map Prod.snd).sum
  if totalWeight = 0 then 1
  else clamp01 ((entries.map (fun p => p.1 * p.2)).sum / totalWeight)

/-! ## Helper lemmas -/

theorem clamp01_nonneg [LinearOrderedField K] (v : K) : 0 ≤ clamp01 v :=
  le_max_left 0 _

theorem clamp01_le_one [LinearOrderedField K] (v : K) : clamp01 v ≤ 1 :=
  max_le zero_le_one (min_le_left 1 v)

theorem clamp01_mono [LinearOrderedField K] {a b : K} (h : a ≤ b) : clamp01 a ≤ clamp01 b :=
  max_le_max le_rfl (min_le_min le_rfl h)

theorem ite_zero_clamp_bounds [LinearOrderedField K] (p : Prop) [Decidable p] (x : K) :
    0 ≤ (if p then 0 else clamp01 x) ∧ (if p then 0 else clamp01 x) ≤ 1 := by
  split
  · exact ⟨le_refl 0, zero_le_one⟩
  · exact ⟨clamp01_nonneg x, clamp01_le_one x⟩

/-! ## Claim C10

Supporting lemmas first: the faithful JS-semantics layer agrees with the
exact-real metric computations exactly on dimension-uniform inputs, and the
ragged case produces NaN. -/

theorem jsDot_of_le (a : Vec ℝ) :
    ∀ b : Vec ℝ, a.length ≤ b.length → jsDot a b = some (dot a b) := by
  induction a with
  | nil =>
    intro b h
    simp [jsDot, dot]
  | cons x a ih =>
    intro b h
    cases b with
    | nil => simp at h
    | cons y b =>
      simp only [jsDot, ih b (by simpa using h), Option.map_some]
      simp [dot]

theorem magnitude_nil : magnitude ([] : Vec ℝ) = 0 := by
  simp [magnitude, dot]

theorem jsMagnitude_eq (v : Vec ℝ) : jsMagnitude v = some (magnitude v) := by
  simp [jsMagnitude, jsDot_of_le v v le_rfl, magnitude]

theorem jsCosineSimilarity_eq (a b : Vec ℝ)
    (h : a.length = b.length ∨ a.length = 0 ∨ b.length = 0) :
    jsCosineSimilarity a b = some (cosineSimilarity a b) := by
  unfold jsCosineSimilarity cosineSimilarity
  rw [jsMagnitude_eq, jsMagnitude_eq]
  by_cases hg : magnitude a = 0 ∨ magnitude b = 0
  · rw [if_pos (by simpa using hg), if_pos hg]
  · rw [if_neg (by simpa using hg), if_neg hg]
    push_neg at hg
    have hb : b ≠ [] := by
      intro hbe
      exact hg.2 (hbe ▸ magnitude_nil)
    have ha : a.length ≤ b.length := by
      rcases h with h1 | h1 | h1
      · omega
      · omega
      · exact absurd (List.length_eq_zero.1 h1) hb
    rw [jsDot_of_le a b ha]
    have hprod : magnitude a * magnitude b ≠ 0 := mul_ne_zero hg.1 hg.2
    simp [jsMul, jsDiv, hprod]

theorem jsSum_map_some (l : List ℝ) : jsSum (l.map some) = some l.sum := by
  induction l with
  | nil => simp [jsSum]
  | cons x xs ih => simp [jsSum, ih, jsAdd]

theorem jsMean_map_some (l : List ℝ) : jsMean (l.map some) = some (mean l) := by
  unfold jsMean mean
  by_cases h : l.length = 0
  · simp [h]
  · have hc : ((l.length : ℝ)) ≠ 0 := Nat.cast_ne_zero.2 h
    simp [h, jsSum_map_some, jsDiv, hc]

theorem jsListMax_foldl (xs : List ℝ) :
    ∀ a : ℝ, (xs.map some).foldl jsMax2 (some a) = some (xs.foldl max a) := by
  induction xs with
  | nil => intro a; rfl
  | cons y ys ih =>
    intro a
    simp only [List.map_cons, List.foldl_cons]
    rw [show jsMax2 (some a) (some y) = some (max a y) from rfl, ih]

theorem jsListMax_map_some (x : ℝ) (xs : List ℝ) :
    jsListMax ((x :: xs).map some) = some (listMax (x :: xs)) := by
  simp only [List.map_cons, jsListMax, listMax]
  exact jsListMax_foldl xs x

theorem allPairs_mem {α : Type} (l : List α) :
    ∀ p ∈ allPairs l, p.1 ∈ l ∧ p.2 ∈ l := by
  induction l with
  | nil => intro p hp; simp [allPairs] at hp
  | cons x xs ih =>
    intro p hp
    rw [allPairs, List.mem_append] at hp
    rcases hp with hp | hp
    · obtain ⟨y, hy, rfl⟩ := List.mem_map.1 hp
      exact ⟨List.mem_cons_self x xs, List.mem_cons_of_mem x hy⟩
    · obtain ⟨h1, h2⟩ := ih p hp
      exact ⟨List.mem_cons_of_mem x h1, List.mem_cons_of_mem x h2⟩

theorem allPairs_ne_nil {α : Type} (a b : α) (t : List α) :
    allPairs (a :: b :: t) ≠ [] := by
  simp [allPairs]

theorem jsComputeGoalDrift_eq (d : Nat) (g c : List (Vec ℝ))
    (hg : ∀ v ∈ g, v.length = 0 ∨ v.length = d)
    (hc : ∀ v ∈ c, v.length = 0 ∨ v.length = d) :
    jsComputeGoalDrift g c = some (computeGoalDrift g c) := by
  unfold jsComputeGoalDrift computeGoalDrift
  by_cases hguard : g.length = 0 ∨ c.length = 0
  · rw [if_pos hguard, if_pos hguard]
  · rw [if_neg hguard, if_neg hguard]
    have hmap : c.map (fun ctx => jsListMax (g.map (fun goal => jsCosineSimilarity goal ctx))) =
        (c.map (fun ctx => listMax (g.map (fun goal => cosineSimilarity goal ctx)))).map some := by
      rw [List.map_map]
      refine List.map_eq_map_iff.mpr ?_
      intro ctx hctx
      have hinner : g.map (fun goal => jsCosineSimilarity goal ctx) =
          (g.map (fun goal => cosineSimilarity goal ctx)).map some := by
        rw [List.map_map]
        refine List.map_eq_map_iff.mpr ?_
        intro goal hgoal
        refine jsCosineSimilarity_eq goal ctx ?_
        rcases hg goal hgoal with h1 | h1
        · exact Or.inr (Or.inl h1)
        · rcases hc ctx hctx with h2 | h2
          · exact Or.inr (Or.inr h2)
          · exact Or.inl (h1.trans h2.symm)
      rw [hinner]
      cases hgl : g.map (fun goal => cosineSimilarity goal ctx) with
      | nil =>
        exfalso
        push_neg at hguard
        exact hguard.1 (by simpa using congrArg List.length hgl)
      | cons x xs =>
        simp only [Function.comp_apply]
        rw [hgl]
        exact jsListMax_map_some x xs
    rw [hmap, jsMean_map_some]
    simp [jsSub, jsClamp01, clamp01]

theorem jsComputeMemoryRetention_eq (d : Nat) (g m : List (Vec ℝ))
    (hg : ∀ v ∈ g, v.length = 0 ∨ v.length = d)
    (hm : ∀ v ∈ m, v.length = 0 ∨ v.length = d) :
    jsComputeMemoryRetention g m = some (computeMemoryRetention g m) := by
  unfold jsComputeMemoryRetention computeMemoryRetention
  by_cases hguard : g.length = 0 ∨ m.length = 0
  · rw [if_pos hguard, if_pos hguard]
  · rw [if_neg hguard, if_neg hguard]
    have hmap : g.map (fun goal => jsListMax (m.map (fun mem => jsCosineSimilarity goal mem))) =
        (g.map (fun goal => listMax (m.map (fun mem => cosineSimilarity goal mem)))).map some := by
      rw [List.map_map]
      refine List.map_eq_map_iff.mpr ?_
      intro goal hgoal
      have hinner : m.map (fun mem => jsCosineSimilarity goal mem) =
          (m.map (fun mem => cosineSimilarity goal mem)).map some := by
        rw [List.map_map]
        refine List.map_eq_map_iff.mpr ?_
        intro mem hmem
        refine jsCosineSimilarity_eq goal mem ?_
        rcases hg goal hgoal with h1 | h1
        · exact Or.inr (Or.inl h1)
        · rcases hm mem hmem with h2 | h2
          · exact Or.inr (Or.inr h2)
          · exact Or.inl (h1.trans h2.symm)
      rw [hinner]
      cases hml : m.map (fun mem => cosineSimilarity goal mem) with
      | nil =>
        exfalso
        push_neg at hguard
        exact hguard.2 (by simpa using congrArg List.length hml)
      | cons x xs =>
        simp only [Function.comp_apply]
        rw [hml]
        exact jsListMax_map_some x xs
    rw [hmap, jsMean_map_some]
    simp [jsClamp01, clamp01]

theorem jsComputeSemanticDiffusion_eq (d : Nat) (c : List (Vec ℝ))
    (hc : ∀ v ∈ c, v.length = 0 ∨ v.length = d) :
    jsComputeSemanticDiffusion c = some (computeSemanticDiffusion c) := by
  unfold jsComputeSemanticDiffusion computeSemanticDiffusion
  by_cases hguard : c.length < 2
  · rw [if_pos hguard, if_pos hguard]
  · rw [if_neg hguard, if_neg hguard]
    have hmap : (allPairs c).map (fun p => jsSub (some 1) (jsCosineSimilarity p.1 p.2)) =
        ((allPairs c).map (fun p => 1 - cosineSimilarity p.1 p.2)).map some := by
      rw [List.map_map]
      refine List.map_eq_map_iff.mpr ?_
      intro p hp
      obtain ⟨h1, h2⟩ := allPairs_mem c p hp
      rw [jsCosineSimilarity_eq p.1 p.2 ?_]
      · rfl
      · rcases hc p.1 h1 with ha | ha
        · exact Or.inr (Or.inl ha)
        · rcases hc p.2 h2 with hb | hb
          · exact Or.inr (Or.inr hb)
          · exact Or.inl (ha.trans hb.symm)
    rw [hmap, jsMean_map_some]
    simp [jsClamp01, clamp01]

/-- C10 counterexample: on the ragged input goals = `[[1, 1]]`,
context = `[[1]]`, the source's `dot` reads past the shorter vector and
NaN-poisons the computation (both magnitudes are nonzero, so the zero
guard does not fire), so `computeGoalDrift` returns NaN — modelled as
`none`, not a value in [0, 1] as the claim requires of every input. -/
theorem c10_ragged_nan_counterexample :
    jsComputeGoalDrift [[(1 : ℝ), 1]] [[(1 : ℝ)]] = none ∧
    ¬∃ x : ℝ, jsComputeGoalDrift [[(1 : ℝ), 1]] [[(1 : ℝ)]] = some x ∧ 0 ≤ x ∧ x ≤ 1 := by
  have hmagA : jsMagnitude [(1 : ℝ), 1] = some (Real.sqrt (1 * 1 + (1 * 1 + 0))) := rfl
  have hmagB : jsMagnitude [(1 : ℝ)] = some (Real.sqrt (1 * 1 + 0)) := rfl
  have hga : ¬(jsMagnitude [(1 : ℝ), 1] = some 0 ∨ jsMagnitude [(1 : ℝ)] = some 0) := by
    rw [hmagA, hmagB]
    simp only [Option.some.injEq, not_or]
    constructor
    · rw [Real.sqrt_eq_zero (by norm_num)]
      norm_num
    · rw [Real.sqrt_eq_zero (by norm_num)]
      norm_num
  have hcos : jsCosineSimilarity [(1 : ℝ), 1] [(1 : ℝ)] = none := by
    unfold jsCosineSimilarity
    rw [if_neg hga]
    have hdot : jsDot [(1 : ℝ), 1] [(1 : ℝ)] = none := rfl
    rw [hdot]
    rfl
  have h : jsComputeGoalDrift [[(1 : ℝ), 1]] [[(1 : ℝ)]] = none := by
    unfold jsComputeGoalDrift
    rw [if_neg (by norm_num)]
    simp only [List.map_cons, List.map_nil, hcos]
    rfl
  refine ⟨h, ?_⟩
  rintro ⟨x, hx, -⟩
  rw [h] at hx
  cases hx

/-- C10 (amended): on every `MetricInput` whose embedding vectors are all
either empty or of one common dimension — as a single embedder with fixed
`dimensions` produces, with the sensor's empty-vector fallback — each of
the four built-in metric computations returns a (finite) value in [0, 1],
equal to its exact-real counterpart; each returns exactly 0 when its
required lists are empty or (for the pairwise metrics) hold fewer than two
context embeddings; `contradictionPressure` stays in [0, 1] on all inputs
(JS `NaN < threshold` is false); and cosine similarity returns 0 whenever
either vector has zero magnitude, so no division by zero occurs.  Without
the dimension restriction, the other three metrics can return NaN (see the
counterexample). -/
theorem c10_metrics_bounded_uniform_dims (d : Nat) (g c m : List (Vec ℝ))
    (hg : ∀ v ∈ g, v.length = 0 ∨ v.length = d)
    (hc : ∀ v ∈ c, v.length = 0 ∨ v.length = d)
    (hm : ∀ v ∈ m, v.length = 0 ∨ v.length = d) :
    (∃ x : ℝ, jsComputeGoalDrift g c = some x ∧ 0 ≤ x ∧ x ≤ 1) ∧
    (∃ x : ℝ, jsComputeMemoryRetention g m = some x ∧ 0 ≤ x ∧ x ≤ 1) ∧
    (∀ c2 : List (Vec ℝ), ∀ t : ℝ,
      ∃ x : ℝ, jsComputeContradictionPressure c2 t = some x ∧ 0 ≤ x ∧ x ≤ 1) ∧
    (∃ x : ℝ, jsComputeSemanticDiffusion c = some x ∧ 0 ≤ x ∧ x ≤ 1) ∧
    (∀ c2 : List (Vec ℝ), jsComputeGoalDrift [] c2 = some 0) ∧
    (∀ g2 : List (Vec ℝ), jsComputeGoalDrift g2 [] = some 0) ∧
    (∀ m2 : List (Vec ℝ), jsComputeMemoryRetention [] m2 = some 0) ∧
    (∀ g2 : List (Vec ℝ), jsComputeMemoryRetention g2 [] = some 0) ∧
    (∀ t : ℝ, jsComputeContradictionPressure [] t = some 0) ∧
    (∀ v : Vec ℝ, ∀ t : ℝ, jsComputeContradictionPressure [v] t = some 0) ∧
    jsComputeSemanticDiffusion [] = some 0 ∧
    (∀ v : Vec ℝ, jsComputeSemanticDiffusion [v] = some 0) ∧
    (∀ a b : Vec ℝ, jsMagnitude a = some 0 ∨ jsMagnitude b = some 0 →
      jsCosineSimilarity a b = some 0) := by
  refine ⟨⟨computeGoalDrift g c, jsComputeGoalDrift_eq d g c hg hc,
      (ite_zero_clamp_bounds _ _ : 0 ≤ computeGoalDrift g c ∧ _)⟩,
    ⟨computeMemoryRetention g m, jsComputeMemoryRetention_eq d g m hg hm,
      (ite_zero_clamp_bounds _ _ : 0 ≤ computeMemoryRetention g m ∧ _)⟩,
    ?_,
    ⟨computeSemanticDiffusion c, jsComputeSemanticDiffusion_eq d c hc,
      (ite_zero_clamp_bounds _ _ : 0 ≤ computeSemanticDiffusion c ∧ _)⟩,
    fun c2 => by simp [jsComputeGoalDrift],
    fun g2 => by simp [jsComputeGoalDrift],
    fun m2 => by simp [jsComputeMemoryRetention],
    fun g2 => by simp [jsComputeMemoryRetention],
    fun t => by simp [jsComputeContradictionPressure],
    fun v t => by simp [jsComputeContradictionPressure],
    by simp [jsComputeSemanticDiffusion],
    fun v => by simp [jsComputeSemanticDiffusion],
    fun a b hz => by unfold jsCosineSimilarity; rw [if_pos hz]⟩
  intro c2 t
  unfold jsComputeContradictionPressure
  by_cases hn : c2.length < 2
  · rw [if_pos hn]
    exact ⟨0, rfl, le_refl 0, zero_le_one⟩
  · rw [if_neg hn]
    obtain ⟨a, c3, rfl⟩ : ∃ a c3, c2 = a :: c3 := by
      cases c2 with
      | nil => simp at hn
      | cons a c3 => exact ⟨a, c3, rfl⟩
    obtain ⟨b, c4, rfl⟩ : ∃ b c4, c3 = b :: c4 := by
      cases c3 with
      | nil => simp at hn
      | cons b c4 => exact ⟨b, c4, rfl⟩
    have hpl : ((allPairs (a :: b :: c4)).length : ℝ) ≠ 0 := by
      rw [Nat.cast_ne_zero, Ne, List.length_eq_zero]
      exact allPairs_ne_nil a b c4
    refine ⟨max 0 (min 1 (((List.filter
        (fun p => jsLtBool (jsCosineSimilarity p.1 p.2) t) (allPairs (a :: b :: c4))).length : ℝ) /
        ((allPairs (a :: b :: c4)).length : ℝ))), ?_, le_max_left 0 _,
      max_le zero_le_one (min_le_left 1 _)⟩
    simp [jsDiv, jsClamp01, hpl]

/-- C10 witness for the amended theorem: dimension-1 inputs satisfy the
uniformity hypothesis, and the goal-drift conjunct yields a value in
[0, 1]. -/
theorem c10_uniform_dims_witness :
    (∀ v ∈ [[(1 : ℝ)]], v.length = 0 ∨ v.length = 1) ∧
    (∃ x : ℝ, jsComputeGoalDrift [[(1 : ℝ)]] [[(1 : ℝ)]] = some x ∧ 0 ≤ x ∧ x ≤ 1) := by
  have hdim : ∀ v ∈ [[(1 : ℝ)]], v.length = 0 ∨ v.length = 1 := by
    intro v hv
    rw [List.mem_singleton] at hv
    subst hv
    right
    rfl
  have hnil : ∀ v ∈ ([] : List (Vec ℝ)), v.length = 0 ∨ v.length = 1 := by
    intro v hv
    simp at hv
  exact ⟨hdim,
    (c10_metrics_bounded_uniform_dims 1 [[(1 : ℝ)]] [[(1 : ℝ)]] [] hdim hdim hnil).1⟩

/-! ## Claim C1 -/

/-- C1: the inverted-name set is resolved globally from the active
descriptor set.  If any vector or scalar descriptor explicitly sets its
polarity flag, a name is inverted exactly when some active descriptor with
that name sets the flag to `true` (descriptors without a flag are direct);
if no descriptor sets the flag, the set is the fixed default
`DEFAULT_INVERTED`. -/
theorem c1_inverted_set_resolution (metrics : List (MetricFn K))
    (scalarMetrics : List (ScalarMetricFn K)) (x : String) :
    x ∈ resolveInvertedSet metrics scalarMetrics ↔
      (if anyDeclaredPolarity metrics scalarMetrics = true then
        (∃ m, m ∈ metrics ∧ m.name = x ∧ m.inverted = some true) ∨
          (∃ s, s ∈ scalarMetrics ∧ s.name = x ∧ s.inverted = some true)
      else x ∈ DEFAULT_INVERTED) := by
  unfold resolveInvertedSet
  by_cases h : anyDeclaredPolarity metrics scalarMetrics = true
  · simp only [h, if_true, if_pos h, List.mem_append, List.mem_map, List.mem_filter,
      beq_iff_eq]
    constructor
    · rintro (⟨m, ⟨hm, hinv⟩, hname⟩ | ⟨s, ⟨hs, hinv⟩, hname⟩)
      · exact Or.inl ⟨m, hm, hname, hinv⟩
      · exact Or.inr ⟨s, hs, hname, hinv⟩
    · rintro (⟨m, hm, hname, hinv⟩ | ⟨s, hs, hname, hinv⟩)
      · exact Or.inl ⟨m, ⟨hm, hinv⟩, hname⟩
      · exact Or.inr ⟨s, ⟨hs, hinv⟩, hname⟩
  · have hb : anyDeclaredPolarity metrics scalarMetrics = false := by
      cases hv : anyDeclaredPolarity metrics scalarMetrics
      · rfl
      · exact absurd hv h
    rw [if_neg (by simp [hb]), if_neg h]

/-! ## Claim C8 -/

/-- C8 counterexample: `history(0)` on a two-element buffer returns the
whole buffer newest-first (JS `slice(-0)` is `slice(0)`), not the empty
list the claim requires for `min(0, size) = 0`. -/
theorem c8_history_zero_counterexample :
    jsHistory [(1 : Nat), 2] (some 0) = [2, 1] ∧ jsHistory [(1 : Nat), 2] (some 0) ≠ [] := by
  exact ⟨rfl, by decide⟩

/-- C8 (amended): for every positive count, `history(count)` returns
exactly the `min(count, size)` most recent readings newest-first (the first
`count` entries of the reversed buffer); `history(0)` returns the entire
buffer newest-first, as does omitting the count. -/
theorem c8_history_count_amended {α : Type} (readings : List α) (n : Nat) :
    jsHistory readings (some (n + 1)) = readings.reverse.take (n + 1) ∧
    (jsHistory readings (some (n + 1))).length = min (n + 1) readings.length ∧
    jsHistory readings (some 0) = readings.reverse ∧
    jsHistory readings none = readings.reverse := by
  have hdr : jsHistory readings (some (n + 1)) = readings.reverse.take (n + 1) := by
    have hr := List.rtake_eq_reverse_take_reverse (l := readings) (n := n + 1)
    rw [List.rtake] at hr
    simp only [jsHistory, Nat.succ_ne_zero, if_false]
    rw [hr, List.reverse_reverse]
  refine ⟨hdr, ?_, by simp [jsHistory], rfl⟩
  rw [hdr, List.length_take, List.length_reverse]

/-! ## Claim C4 -/

/-- C4 counterexample: a successful measurement on a sensor with empty
vector-metric and scalar-metric lists yields an empty snapshot — the
orchestrator never seeds the four built-in metric names, so `goalDrift` is
absent rather than mapped to 0. -/
theorem c4_no_seeding_counterexample :
    (measure ⟨[], [], [], ⟨1, 1, 0⟩, false, 100⟩
        ⟨.ok [], .ok [], .ok [], .ok [], fun _ => .ok [], fun _ => .ok ()⟩
        ⟨0, 0⟩ ([] : List (CoherenceReading ℚ))).result =
      .ok ⟨0, 0, [], 1, Band.green⟩ ∧
    snapLookup ([] : MetricSnapshot ℚ) "goalDrift" = none :=
  ⟨rfl, rfl⟩

/-- C4 (amended): the snapshot is never seeded; it holds exactly the
entries written by the active metric lists, so a sensor configured with an
empty vector-metric list and an empty scalar-metric list produces readings
whose snapshot is empty (in particular the four built-in names are
absent). -/
theorem c4_empty_metrics_empty_snapshot [LinearOrderedField K] [DecidableEq K]
    (w : MetricWeights K) (th : BandThresholds K) (hb : Bool) (cap : Nat)
    (env : SensorEnv K) (tick : Tick) (readings0 : List (CoherenceReading K))
    (r : CoherenceReading K)
    (hr : (measure ⟨[], [], w, th, hb, cap⟩ env tick readings0).result = .ok r) :
    r.metrics = [] := by
  obtain ⟨goals, context, goalRelevantMemories, allMemories, embedBatch, onReadingResult⟩ := env
  have hcore : ∀ r0 : CoherenceReading K, ∀ calls, measureCore ⟨[], [], w, th, hb, cap⟩
      ⟨goals, context, goalRelevantMemories, allMemories, embedBatch, onReadingResult⟩ tick =
      (.ok r0, calls) → r0.metrics = [] := by
    intro r0 calls hc
    cases goals with
    | error e => simp [measureCore] at hc
    | ok goals =>
    cases context with
    | error e => simp [measureCore] at hc
    | ok context =>
    cases goalRelevantMemories with
    | error e => simp [measureCore] at hc
    | ok goalRelevantMemories =>
    cases allMemories with
    | error e => simp [measureCore] at hc
    | ok allMemories =>
    have hsc : runScalars ([] : List (ScalarMetricFn K)) = Except.ok [] := rfl
    simp only [measureCore, hsc, List.map_nil] at hc
    split at hc
    · simp at hc
    · simp only [Prod.mk.injEq] at hc
      obtain ⟨h1, h2⟩ := hc
      cases h1
      rfl
  unfold measure at hr
  split at hr
  · cases hr
  · rename_i reading calls hcoreEq
    have hm := hcore reading calls hcoreEq
    cases hb with
    | false =>
      simp only [Bool.false_eq_true, if_false] at hr
      cases hr
      exact hm
    | true =>
      simp only [if_true] at hr
      split at hr
      · cases hr
      · cases hr
        exact hm

/-- C4 witness for the amended theorem: a concrete successful measurement
with empty metric lists, whose snapshot the theorem shows to be empty. -/
theorem c4_witness :
    (measure ⟨[], [], [], ⟨1, 1, 0⟩, false, 100⟩
        ⟨.ok ["g"], .ok [], .ok [], .ok [], fun ts => .ok (ts.map (fun _ => [1])),
          fun _ => .ok ()⟩
        ⟨0, 0⟩ ([] : List (CoherenceReading ℚ))).result =
      .ok ⟨0, 0, [], 1, Band.green⟩ ∧
    (⟨0, 0, [], 1, Band.green⟩ : CoherenceReading ℚ).metrics = [] := by
  have hr : (measure ⟨[], [], [], ⟨1, 1, 0⟩, false, 100⟩
      ⟨.ok ["g"], .ok [], .ok [], .ok [], fun ts => .ok (ts.map (fun _ => [1])),
        fun _ => .ok ()⟩
      ⟨0, 0⟩ ([] : List (CoherenceReading ℚ))).result =
      .ok ⟨0, 0, [], 1, Band.green⟩ := rfl
  exact ⟨hr, c4_empty_metrics_empty_snapshot [] ⟨1, 1, 0⟩ false 100 _ _ _ _ hr⟩

/-! ## Claim C3 -/

theorem coherenceFold_eq_selected [LinearOrderedField K] [DecidableEq K]
    (metrics : MetricSnapshot K) (inv : List String) (ws : MetricWeights K) :
    coherenceFold metrics inv ws =
      (((selectedContributions metrics inv ws).map (fun p => p.1 * p.2)).sum,
       ((selectedContributions metrics inv ws).map Prod.snd).sum) := by
  induction ws with
  | nil => simp [coherenceFold, selectedContributions]
  | cons kw rest ih =>
    obtain ⟨key, w⟩ := kw
    cases w with
    | none =>
      simpa [coherenceFold, selectedContributions] using ih
    | some weight =>
      by_cases hz : weight = 0
      · simpa [coherenceFold, selectedContributions, hz] using ih
      · cases hl : snapLookup metrics key with
        | none => simpa [coherenceFold, selectedContributions, hz, hl] using ih
        | some v =>
          simp only [coherenceFold, selectedContributions, hz, hl, if_neg hz,
            List.filterMap_cons, ih, List.map_cons, List.sum_cons, if_false, ite_false]
          rw [Prod.mk.injEq]
          constructor <;> ring

/-- C3: the coherence aggregation equals the claimed algorithm — iterate
the weight entries, skip undefined and zero weights and names absent from
the snapshot, contribute `(1 - value)` for inverted names and `value`
otherwise times the weight, return exactly 1 when the total selected
weight is 0 and the clamped weighted average otherwise — and for all
inputs the result is a well-defined scalar in [0, 1] (never NaN). -/
theorem c3_aggregation_matches_spec [LinearOrderedField K] [DecidableEq K]
    (metrics : MetricSnapshot K) (weights : MetricWeights K) (invertedMetrics : List String) :
    computeCoherenceIndex metrics weights invertedMetrics =
      coherenceIndexSpec metrics weights invertedMetrics ∧
    0 ≤ computeCoherenceIndex metrics weights invertedMetrics ∧
    computeCoherenceIndex metrics weights invertedMetrics ≤ 1 := by
  refine ⟨?_, ?_⟩
  · unfold computeCoherenceIndex coherenceIndexSpec
    rw [coherenceFold_eq_selected]
  · simp only [computeCoherenceIndex]
    split
    · exact ⟨zero_le_one, le_refl 1⟩
    · exact ⟨clamp01_nonneg _, clamp01_le_one _⟩

/-! ## Claim C9 -/

theorem coherenceFold_total_nonneg [LinearOrderedField K] [DecidableEq K]
    (metrics : MetricSnapshot K) (inv : List String) (ws : MetricWeights K)
    (hw : ∀ p ∈ ws, ∀ x, p.2 = some x → 0 ≤ x) :
    0 ≤ (coherenceFold metrics inv ws).2 := by
  induction ws with
  | nil => simp [coherenceFold]
  | cons kw rest ih =>
    have hrest := ih (fun p hp => hw p (List.mem_cons_of_mem _ hp))
    obtain ⟨key, w⟩ := kw
    cases w with
    | none => simpa [coherenceFold] using hrest
    | some weight =>
      have hwnn : 0 ≤ weight := hw (key, some weight) (List.mem_cons_self _ _) weight rfl
      by_cases hz : weight = 0
      · simpa [coherenceFold, hz] using hrest
      · cases hl : snapLookup metrics key with
        | none => simpa [coherenceFold, hz, hl] using hrest
        | some v =>
          simp only [coherenceFold, hz, hl, if_neg hz, ite_false]
          exact add_nonneg hrest hwnn

theorem coherenceFold_agree [LinearOrderedField K] [DecidableEq K]
    (s1 s2 : MetricSnapshot K) (inv : List String) (k : String) (v v' : K)
    (hk1 : snapLookup s1 k = some v) (hk2 : snapLookup s2 k = some v')
    (hagree : ∀ name, name ≠ k → snapLookup s1 name = snapLookup s2 name)
    (hc : (if k ∈ inv then 1 - v else v) ≤ (if k ∈ inv then 1 - v' else v'))
    (ws : MetricWeights K) (hw : ∀ p ∈ ws, ∀ x, p.2 = some x → 0 ≤ x) :
    (coherenceFold s1 inv ws).1 ≤ (coherenceFold s2 inv ws).1 ∧
    (coherenceFold s1 inv ws).2 = (coherenceFold s2 inv ws).2 := by
  induction ws with
  | nil => simp [coherenceFold]
  | cons kw rest ih =>
    have hrest := ih (fun p hp => hw p (List.mem_cons_of_mem _ hp))
    obtain ⟨key, w⟩ := kw
    cases w with
    | none => simpa [coherenceFold] using hrest
    | some weight =>
      have hwnn : 0 ≤ weight := hw (key, some weight) (List.mem_cons_self _ _) weight rfl
      by_cases hz : weight = 0
      · simpa [coherenceFold, hz] using hrest
      · by_cases hkey : key = k
        · subst hkey
          simp only [coherenceFold, hz, if_neg hz, hk1, hk2, ite_false]
          exact ⟨add_le_add hrest.1 (mul_le_mul_of_nonneg_right hc hwnn),
            by rw [hrest.2]⟩
        · have hlook := hagree key hkey
          cases hl : snapLookup s2 key with
          | none => simp only [coherenceFold, hz, if_neg hz, hlook, hl, ite_false]; exact hrest
          | some u =>
            simp only [coherenceFold, hz, if_neg hz, hlook, hl, ite_false]
            exact ⟨add_le_add hrest.1 (le_refl _), by rw [hrest.2]⟩

theorem index_le_of_fold [LinearOrderedField K] [DecidableEq K]
    {s1 s2 : MetricSnapshot K} {w : MetricWeights K} {inv : List String}
    (h1 : (coherenceFold s1 inv w).1 ≤ (coherenceFold s2 inv w).1)
    (h2 : (coherenceFold s1 inv w).2 = (coherenceFold s2 inv w).2)
    (hnn : 0 ≤ (coherenceFold s2 inv w).2) :
    computeCoherenceIndex s1 w inv ≤ computeCoherenceIndex s2 w inv := by
  unfold computeCoherenceIndex
  by_cases hz : (coherenceFold s2 inv w).2 = 0
  · rw [if_pos hz, if_pos (h2.trans hz)]
  · have hz1 : ¬(coherenceFold s1 inv w).2 = 0 := fun hc => hz (h2 ▸ hc)
    rw [if_neg hz1, if_neg hz]
    have hpos : 0 < (coherenceFold s2 inv w).2 := lt_of_le_of_ne hnn (Ne.symm hz)
    apply clamp01_mono
    rw [h2]
    exact (div_le_div_iff_of_pos_right hpos).2 h1

/-- C9: moving a single metric toward its coherent extreme — raising a
non-inverted metric's value or lowering an inverted metric's value, with
all other snapshot entries, the (non-negative) weights, and the inverted
set held fixed — never decreases the coherence index. -/
theorem c9_monotone_toward_coherence [LinearOrderedField K] [DecidableEq K]
    (s1 s2 : MetricSnapshot K) (weights : MetricWeights K) (invertedMetrics : List String)
    (k : String) (v v' : K)
    (hw : ∀ p ∈ weights, ∀ x, p.2 = some x → 0 ≤ x)
    (hk1 : snapLookup s1 k = some v) (hk2 : snapLookup s2 k = some v')
    (hagree : ∀ name, name ≠ k → snapLookup s1 name = snapLookup s2 name)
    (hle : v ≤ v') :
    (k ∉ invertedMetrics →
      computeCoherenceIndex s1 weights invertedMetrics ≤
        computeCoherenceIndex s2 weights invertedMetrics) ∧
    (k ∈ invertedMetrics →
      computeCoherenceIndex s2 weights invertedMetrics ≤
        computeCoherenceIndex s1 weights invertedMetrics) := by
  constructor
  · intro hnotin
    have hc : (if k ∈ invertedMetrics then 1 - v else v) ≤
        (if k ∈ invertedMetrics then 1 - v' else v') := by
      rw [if_neg hnotin, if_neg hnotin]; exact hle
    have h := coherenceFold_agree s1 s2 invertedMetrics k v v' hk1 hk2 hagree hc weights hw
    exact index_le_of_fold h.1 h.2 (coherenceFold_total_nonneg s2 invertedMetrics weights hw)
  · intro hin
    have hc : (if k ∈ invertedMetrics then 1 - v' else v') ≤
        (if k ∈ invertedMetrics then 1 - v else v) := by
      rw [if_pos hin, if_pos hin]; exact sub_le_sub_left hle 1
    have h := coherenceFold_agree s2 s1 invertedMetrics k v' v hk2 hk1
      (fun name hn => (hagree name hn).symm) hc weights hw
    exact index_le_of_fold h.1 h.2 (coherenceFold_total_nonneg s1 invertedMetrics weights hw)

/-- C9 witness: raising the non-inverted metric `m` from 0 to 1 under
weight 1 does not decrease the index. -/
theorem c9_witness :
    (∀ p ∈ ([("m", some (1 : ℚ))] : MetricWeights ℚ), ∀ x, p.2 = some x → 0 ≤ x) ∧
    snapLookup [("m", (0 : ℚ))] "m" = some 0 ∧ (0 : ℚ) ≤ 1 ∧
    computeCoherenceIndex [("m", (0 : ℚ))] [("m", some 1)] [] ≤
      computeCoherenceIndex [("m", (1 : ℚ))] [("m", some 1)] [] := by
  have hw : ∀ p ∈ ([("m", some (1 : ℚ))] : MetricWeights ℚ), ∀ x, p.2 = some x → 0 ≤ x := by
    intro p hp x hx
    rw [List.mem_singleton] at hp
    subst hp
    cases hx
    exact zero_le_one
  have hagree : ∀ name, name ≠ "m" →
      snapLookup [("m", (0 : ℚ))] name = snapLookup [("m", (1 : ℚ))] name := by
    intro name hn
    have hb : ("m" == name) = false := beq_eq_false_iff_ne.2 (Ne.symm hn)
    simp [snapLookup, hb]
  have h := c9_monotone_toward_coherence [("m", (0 : ℚ))] [("m", 1)] [("m", some 1)] []
    "m" 0 1 hw rfl rfl hagree zero_le_one
  exact ⟨hw, rfl, zero_le_one, h.1 (List.not_mem_nil "m")⟩

/-! ## Claim C2 -/

/-- C2 (evaluation at the claim's input): with all defaults — the four
built-in metrics, no scalar metrics, equal 0.25 weights, default
thresholds — and all four state categories empty, every built-in metric
value is 0 as claimed, but the code yields coherenceIndex 1/4 and band red,
not the claimed 0.75 and yellow: `contradictionPressureMetric` alone
declares `inverted: true`, which flips the resolver into declared mode and
drops `goalDrift` and `semanticDiffusion` from the inverted set. -/
theorem c2_default_empty_state_evaluation :
    (measure ⟨DEFAULT_METRICS, [], DEFAULT_WEIGHTS, DEFAULT_THRESHOLDS, false, 100⟩
        ⟨.ok [], .ok [], .ok [], .ok [], fun _ => .ok [], fun _ => .ok ()⟩
        ⟨0, 0⟩ ([] : List (CoherenceReading ℝ))).result =
      .ok ⟨0, 0,
        [("goalDrift", 0), ("memoryRetention", 0), ("contradictionPressure", 0),
         ("semanticDiffusion", 0)], 1 / 4, Band.red⟩ := by
  have hgd : computeGoalDrift [] [] = 0 := by simp [computeGoalDrift]
  have hmr : computeMemoryRetention [] [] = 0 := by simp [computeMemoryRetention]
  have hcp : computeContradictionPressure [] (3 / 10) = 0 := by simp [computeContradictionPressure]
  have hsd : computeSemanticDiffusion [] = 0 := by simp [computeSemanticDiffusion]
  have hinv : resolveInvertedSet DEFAULT_METRICS ([] : List (ScalarMetricFn ℝ)) =
      ["contradictionPressure"] := rfl
  have hl1 : snapLookup [("goalDrift", (0:ℝ)), ("memoryRetention", 0), ("contradictionPressure", 0),
      ("semanticDiffusion", 0)] "goalDrift" = some 0 := rfl
  have hl2 : snapLookup [("goalDrift", (0:ℝ)), ("memoryRetention", 0), ("contradictionPressure", 0),
      ("semanticDiffusion", 0)] "memoryRetention" = some 0 := rfl
  have hl3 : snapLookup [("goalDrift", (0:ℝ)), ("memoryRetention", 0), ("contradictionPressure", 0),
      ("semanticDiffusion", 0)] "contradictionPressure" = some 0 := rfl
  have hl4 : snapLookup [("goalDrift", (0:ℝ)), ("memoryRetention", 0), ("contradictionPressure", 0),
      ("semanticDiffusion", 0)] "semanticDiffusion" = some 0 := rfl
  have hfold : coherenceFold
      [("goalDrift", (0:ℝ)), ("memoryRetention", 0), ("contradictionPressure", 0),
       ("semanticDiffusion", 0)] ["contradictionPressure"] (DEFAULT_WEIGHTS (K := ℝ)) = (1 / 4, 1) := by
    simp only [coherenceFold, DEFAULT_WEIGHTS, hl1, hl2, hl3, hl4]
    simp
    norm_num
  have hidx : computeCoherenceIndex
      [("goalDrift", (0:ℝ)), ("memoryRetention", 0), ("contradictionPressure", 0),
       ("semanticDiffusion", 0)] DEFAULT_WEIGHTS ["contradictionPressure"] = 1 / 4 := by
    rw [computeCoherenceIndex, hfold]
    norm_num
    show max 0 (min 1 ((1:ℝ) / 4)) = 1 / 4
    rw [min_eq_right (by norm_num), max_eq_right (by norm_num)]
  have hband : classifyBand (1 / 4 : ℝ) DEFAULT_THRESHOLDS = Band.red := by
    simp only [classifyBand, DEFAULT_THRESHOLDS]
    norm_num
  have hsc : runScalars ([] : List (ScalarMetricFn ℝ)) = Except.ok [] := rfl
  simp only [measure, measureCore, DEFAULT_METRICS, goalDriftMetric, memoryRetentionMetric,
    contradictionPressureMetric, semanticDiffusionMetric, buildMetricInput,
    jsSetDedup, List.foldl_nil, List.length_nil, List.append_nil, hsc,
    List.map_nil, List.map_cons, hgd, hmr, hcp, hsd, hinv, hidx, hband,
    Bool.false_eq_true, if_false, ite_false, if_true, ite_true]
  simp [resolveInvertedSet, anyDeclaredPolarity, List.filter, hidx, hband]
  norm_num [classifyBand, DEFAULT_THRESHOLDS]

/-! ## Shell lemmas: `measure` in terms of `measureCore` -/

theorem measure_core_error [LinearOrderedField K] [DecidableEq K]
    (opts : SensorOptions K) (env : SensorEnv K) (tick : Tick)
    (readings0 : List (CoherenceReading K)) (e : Err) (calls : List (List String))
    (h : measureCore opts env tick = (.error e, calls)) :
    measure opts env tick readings0 = ⟨.error e, readings0, calls, []⟩ := by
  unfold measure
  rw [h]

theorem measure_core_ok_no_callback [LinearOrderedField K] [DecidableEq K]
    (opts : SensorOptions K) (env : SensorEnv K) (tick : Tick)
    (readings0 : List (CoherenceReading K)) (r : CoherenceReading K)
    (calls : List (List String)) (h : measureCore opts env tick = (.ok r, calls))
    (hb : opts.hasOnReading = false) :
    measure opts env tick readings0 =
      ⟨.ok r, jsRecord readings0 r opts.historySize, calls, []⟩ := by
  unfold measure
  rw [h]
  simp [hb]

theorem measure_core_ok_callback_ok [LinearOrderedField K] [DecidableEq K]
    (opts : SensorOptions K) (env : SensorEnv K) (tick : Tick)
    (readings0 : List (CoherenceReading K)) (r : CoherenceReading K)
    (calls : List (List String)) (h : measureCore opts env tick = (.ok r, calls))
    (hb : opts.hasOnReading = true) (hcb : env.onReadingResult r = .ok ()) :
    measure opts env tick readings0 =
      ⟨.ok r, jsRecord readings0 r opts.historySize, calls, [r]⟩ := by
  unfold measure
  rw [h]
  simp [hb, hcb]

theorem measure_core_ok_callback_error [LinearOrderedField K] [DecidableEq K]
    (opts : SensorOptions K) (env : SensorEnv K) (tick : Tick)
    (readings0 : List (CoherenceReading K)) (r : CoherenceReading K)
    (calls : List (List String)) (e : Err) (h : measureCore opts env tick = (.ok r, calls))
    (hb : opts.hasOnReading = true) (hcb : env.onReadingResult r = .error e) :
    measure opts env tick readings0 =
      ⟨.error e, jsRecord readings0 r opts.historySize, calls, [r]⟩ := by
  unfold measure
  rw [h]
  simp [hb, hcb]

theorem measure_result_readings [LinearOrderedField K] [DecidableEq K]
    (opts : SensorOptions K) (env : SensorEnv K) (tick : Tick)
    (readings0 : List (CoherenceReading K)) :
    (measure opts env tick readings0).result = (measure opts env tick []).result ∧
    (∀ r, (measure opts env tick readings0).result = .ok r →
      (measure opts env tick readings0).readings = jsRecord readings0 r opts.historySize) ∧
    (measure opts env tick readings0).embedCalls = (measureCore opts env tick).2 := by
  rcases hcore : measureCore opts env tick with ⟨res, calls⟩
  cases res with
  | error e =>
    rw [measure_core_error opts env tick readings0 e calls hcore,
      measure_core_error opts env tick [] e calls hcore]
    exact ⟨rfl, fun r hr => Except.noConfusion hr, rfl⟩
  | ok r0 =>
    cases hb : opts.hasOnReading with
    | false =>
      rw [measure_core_ok_no_callback opts env tick readings0 r0 calls hcore hb,
        measure_core_ok_no_callback opts env tick [] r0 calls hcore hb]
      refine ⟨rfl, ?_, rfl⟩
      intro r hr
      rw [← Except.ok.inj hr]
    | true =>
      rcases hcb : env.onReadingResult r0 with e | u
      · rw [measure_core_ok_callback_error opts env tick readings0 r0 calls e hcore hb hcb,
          measure_core_ok_callback_error opts env tick [] r0 calls e hcore hb hcb]
        exact ⟨rfl, fun r hr => Except.noConfusion hr, rfl⟩
      · cases u
        rw [measure_core_ok_callback_ok opts env tick readings0 r0 calls hcore hb hcb,
          measure_core_ok_callback_ok opts env tick [] r0 calls hcore hb hcb]
        refine ⟨rfl, ?_, rfl⟩
        intro r hr
        rw [← Except.ok.inj hr]

/-! ## Ring-buffer lemmas -/

theorem jsRecord_shape {α : Type} (buf : List α) (r : α) (cap : Nat) (h : buf.length ≤ cap) :
    jsRecord buf r cap = (buf ++ [r]).drop (buf.length + 1 - cap) ∧
    (jsRecord buf r cap).length = min (buf.length + 1) cap := by
  unfold jsRecord
  by_cases hc : cap < buf.length + 1
  · have hcond : cap < (buf ++ [r]).length := by simpa using hc
    rw [if_pos hcond]
    have hbc : buf.length = cap := by omega
    constructor
    · rw [show buf.length + 1 - cap = 1 by omega, ← List.drop_one]
    · simp [List.length_tail]
      omega
  · have hcond : ¬cap < (buf ++ [r]).length := by simpa using hc
    rw [if_neg hcond]
    constructor
    · rw [show buf.length + 1 - cap = 0 by omega, List.drop_zero]
    · simp
      omega

theorem runMeasures_drop [LinearOrderedField K] [DecidableEq K] (opts : SensorOptions K) :
    ∀ (calls : List (SensorEnv K × Tick)) (rs buf : List (CoherenceReading K)),
      buf.length ≤ opts.historySize →
      calls.map (fun p => (measure opts p.1 p.2 []).result) = rs.map Except.ok →
      runMeasures opts calls buf =
        (buf ++ rs).drop (buf.length + rs.length - opts.historySize) := by
  intro calls
  induction calls with
  | nil =>
    intro rs buf hlen hok
    cases rs with
    | nil =>
      simp only [runMeasures, List.append_nil, List.length_nil, Nat.add_zero]
      rw [show buf.length - opts.historySize = 0 by omega, List.drop_zero]
    | cons r rs => simp at hok
  | cons p rest ih =>
    intro rs buf hlen hok
    cases rs with
    | nil => simp at hok
    | cons r rs =>
      simp only [List.map_cons, List.cons.injEq] at hok
      obtain ⟨h1, h2⟩ := hok
      have hmr := measure_result_readings opts p.1 p.2 buf
      have hres : (measure opts p.1 p.2 buf).result = .ok r := hmr.1.trans h1
      have hread : (measure opts p.1 p.2 buf).readings = jsRecord buf r opts.historySize :=
        hmr.2.1 r hres
      have hshape := jsRecord_shape buf r opts.historySize hlen
      have hlen' : (jsRecord buf r opts.historySize).length ≤ opts.historySize := by
        rw [hshape.2]; omega
      simp only [runMeasures, hread]
      rw [ih rs (jsRecord buf r opts.historySize) hlen' h2, hshape.2, hshape.1]
      have hd : buf.length + 1 - opts.historySize ≤ (buf ++ [r]).length := by
        simp only [List.length_append, List.length_cons, List.length_nil]
        omega
      rw [← List.drop_append_of_le_length hd, List.drop_drop]
      rw [show (buf ++ [r]) ++ rs = buf ++ r :: rs by simp]
      congr 1
      simp
      omega

/-! ## Claim C7 -/

/-- C7: after any sequence of successful `measure()` calls (producing the
readings `rs` in order) on a sensor with history capacity C, the buffer
holds exactly the `min(k, C)` most recent readings — the suffix of `rs`
obtained by evicting oldest-first — and `history()` with no argument
returns them all newest-first without disturbing the buffer. -/
theorem c7_history_fifo_eviction [LinearOrderedField K] [DecidableEq K]
    (opts : SensorOptions K) (calls : List (SensorEnv K × Tick))
    (rs : List (CoherenceReading K))
    (hok : calls.map (fun p => (measure opts p.1 p.2 []).result) = rs.map Except.ok) :
    runMeasures opts calls [] = rs.drop (rs.length - opts.historySize) ∧
    (runMeasures opts calls []).length = min rs.length opts.historySize ∧
    jsHistory (runMeasures opts calls []) none =
      (rs.drop (rs.length - opts.historySize)).reverse := by
  have h := runMeasures_drop opts calls rs [] (by simp) hok
  simp only [List.nil_append, List.length_nil, Nat.zero_add] at h
  refine ⟨h, ?_, ?_⟩
  · rw [h, List.length_drop]
    omega
  · rw [jsHistory, h]

/-- C7 witness: three successful measurements on a capacity-2 sensor leave
the last two readings, and `history()` returns them newest-first. -/
theorem c7_witness :
    ([((⟨.ok [], .ok [], .ok [], .ok [], fun _ => .ok [], fun _ => .ok ()⟩ : SensorEnv ℚ),
        (⟨0, 0⟩ : Tick)),
      (⟨.ok [], .ok [], .ok [], .ok [], fun _ => .ok [], fun _ => .ok ()⟩, ⟨1, 1⟩),
      (⟨.ok [], .ok [], .ok [], .ok [], fun _ => .ok [], fun _ => .ok ()⟩, ⟨2, 2⟩)].map
        (fun p => (measure ⟨[], [], [], ⟨1, 1, 0⟩, false, 2⟩ p.1 p.2 []).result) =
      [(⟨0, 0, [], 1, Band.green⟩ : CoherenceReading ℚ), ⟨1, 1, [], 1, Band.green⟩,
        ⟨2, 2, [], 1, Band.green⟩].map Except.ok) ∧
    runMeasures ⟨[], [], [], ⟨1, 1, 0⟩, false, 2⟩
      [((⟨.ok [], .ok [], .ok [], .ok [], fun _ => .ok [], fun _ => .ok ()⟩ : SensorEnv ℚ),
        (⟨0, 0⟩ : Tick)),
       (⟨.ok [], .ok [], .ok [], .ok [], fun _ => .ok [], fun _ => .ok ()⟩, ⟨1, 1⟩),
       (⟨.ok [], .ok [], .ok [], .ok [], fun _ => .ok [], fun _ => .ok ()⟩, ⟨2, 2⟩)] [] =
      [(⟨1, 1, [], 1, Band.green⟩ : CoherenceReading ℚ), ⟨2, 2, [], 1, Band.green⟩] := by
  have hok : ([((⟨.ok [], .ok [], .ok [], .ok [], fun _ => .ok [], fun _ => .ok ()⟩ : SensorEnv ℚ),
        (⟨0, 0⟩ : Tick)),
      (⟨.ok [], .ok [], .ok [], .ok [], fun _ => .ok [], fun _ => .ok ()⟩, ⟨1, 1⟩),
      (⟨.ok [], .ok [], .ok [], .ok [], fun _ => .ok [], fun _ => .ok ()⟩, ⟨2, 2⟩)].map
        (fun p => (measure ⟨[], [], [], ⟨1, 1, 0⟩, false, 2⟩ p.1 p.2 []).result) =
      [(⟨0, 0, [], 1, Band.green⟩ : CoherenceReading ℚ), ⟨1, 1, [], 1, Band.green⟩,
        ⟨2, 2, [], 1, Band.green⟩].map Except.ok) := rfl
  exact ⟨hok, (c7_history_fifo_eviction _ _ _ hok).1⟩

/-! ## Claim C6 -/

/-- C6: any state-accessor, batch-embedding, or scalar-metric failure
aborts the measurement with that error, leaves the history buffer
untouched, and never invokes the notification callback; a notification
callback failure propagates out of `measure()`, but only after the
completed reading was recorded in the buffer (push plus oldest-first
eviction), the callback having received exactly that reading. -/
theorem c6_failure_atomicity [LinearOrderedField K] [DecidableEq K]
    (opts : SensorOptions K) (env : SensorEnv K) (tick : Tick)
    (readings0 : List (CoherenceReading K)) (e : Err) :
    (env.goals = .error e → measure opts env tick readings0 = ⟨.error e, readings0, [], []⟩) ∧
    (∀ g, env.goals = .ok g → env.recentContext = .error e →
      measure opts env tick readings0 = ⟨.error e, readings0, [], []⟩) ∧
    (∀ g c, env.goals = .ok g → env.recentContext = .ok c →
      env.goalRelevantMemories = .error e →
      measure opts env tick readings0 = ⟨.error e, readings0, [], []⟩) ∧
    (∀ g c gm, env.goals = .ok g → env.recentContext = .ok c →
      env.goalRelevantMemories = .ok gm → env.allMemories = .error e →
      measure opts env tick readings0 = ⟨.error e, readings0, [], []⟩) ∧
    (∀ g c gm am, env.goals = .ok g → env.recentContext = .ok c →
      env.goalRelevantMemories = .ok gm → env.allMemories = .ok am →
      jsSetDedup (g ++ c ++ gm ++ am) ≠ [] →
      env.embedBatch (jsSetDedup (g ++ c ++ gm ++ am)) = .error e →
      measure opts env tick readings0 =
        ⟨.error e, readings0, [jsSetDedup (g ++ c ++ gm ++ am)], []⟩) ∧
    (∀ g c gm am embeddings, env.goals = .ok g → env.recentContext = .ok c →
      env.goalRelevantMemories = .ok gm → env.allMemories = .ok am →
      (jsSetDedup (g ++ c ++ gm ++ am) = [] ∨
        env.embedBatch (jsSetDedup (g ++ c ++ gm ++ am)) = .ok embeddings) →
      runScalars opts.scalarMetrics = .error e →
      (measure opts env tick readings0).result = .error e ∧
      (measure opts env tick readings0).readings = readings0 ∧
      (measure opts env tick readings0).callbackCalls = []) ∧
    (∀ r calls, measureCore opts env tick = (.ok r, calls) → opts.hasOnReading = true →
      env.onReadingResult r = .error e →
      measure opts env tick readings0 =
        ⟨.error e, jsRecord readings0 r opts.historySize, calls, [r]⟩) := by
  refine ⟨?_, ?_, ?_, ?_, ?_, ?_, ?_⟩
  · intro h
    exact measure_core_error opts env tick readings0 e []
      (by simp [measureCore, h])
  · intro g hg h
    exact measure_core_error opts env tick readings0 e []
      (by simp [measureCore, hg, h])
  · intro g c hg hc h
    exact measure_core_error opts env tick readings0 e []
      (by simp [measureCore, hg, hc, h])
  · intro g c gm hg hc hgm h
    exact measure_core_error opts env tick readings0 e []
      (by simp [measureCore, hg, hc, hgm, h])
  · intro g c gm am hg hc hgm ham hne hemb
    simp only [List.append_assoc] at hne hemb
    refine measure_core_error opts env tick readings0 e [jsSetDedup (g ++ c ++ gm ++ am)]
      ?_
    simp only [List.append_assoc]
    simp [measureCore, hg, hc, hgm, ham, hne, hemb, Except.map]
  · intro g c gm am embeddings hg hc hgm ham hcase hsc
    rcases hcase with hd | hemb
    · simp only [List.append_assoc] at hd
      have hcore : measureCore opts env tick = (.error e, []) := by
        simp [measureCore, hg, hc, hgm, ham, hd, hsc]
      rw [measure_core_error opts env tick readings0 e [] hcore]
      exact ⟨rfl, rfl, rfl⟩
    · simp only [List.append_assoc] at hemb
      by_cases hd : jsSetDedup (g ++ (c ++ (gm ++ am))) = []
      · have hcore : measureCore opts env tick = (.error e, []) := by
          simp [measureCore, hg, hc, hgm, ham, hd, hsc]
        rw [measure_core_error opts env tick readings0 e [] hcore]
        exact ⟨rfl, rfl, rfl⟩
      · have hcore : measureCore opts env tick =
            (.error e, [jsSetDedup (g ++ (c ++ (gm ++ am)))]) := by
          simp [measureCore, hg, hc, hgm, ham, hd, hemb, hsc, Except.map]
        rw [measure_core_error opts env tick readings0 e
          [jsSetDedup (g ++ (c ++ (gm ++ am)))] hcore]
        exact ⟨rfl, rfl, rfl⟩
  · intro r calls hcore hb hcb
    exact measure_core_ok_callback_error opts env tick readings0 r calls e hcore hb hcb

/-- C6 witness: a failing goals accessor aborts with that error leaving
history untouched and the callback uninvoked; a failing callback
propagates with the reading already recorded. -/
theorem c6_witness :
    ((⟨.error "boom", .ok [], .ok [], .ok [], fun _ => .ok [], fun _ => .ok ()⟩ :
        SensorEnv ℚ).goals = .error "boom") ∧
    measure (⟨[], [], [], ⟨1, 1, 0⟩, false, 2⟩ : SensorOptions ℚ)
      ⟨.error "boom", .ok [], .ok [], .ok [], fun _ => .ok [], fun _ => .ok ()⟩ ⟨0, 0⟩ [] =
      ⟨.error "boom", [], [], []⟩ ∧
    measureCore (⟨[], [], [], ⟨1, 1, 0⟩, true, 2⟩ : SensorOptions ℚ)
      ⟨.ok [], .ok [], .ok [], .ok [], fun _ => .ok [], fun _ => .error "cb"⟩ ⟨0, 0⟩ =
      (.ok ⟨0, 0, [], 1, Band.green⟩, []) ∧
    measure (⟨[], [], [], ⟨1, 1, 0⟩, true, 2⟩ : SensorOptions ℚ)
      ⟨.ok [], .ok [], .ok [], .ok [], fun _ => .ok [], fun _ => .error "cb"⟩ ⟨0, 0⟩ [] =
      ⟨.error "cb", [⟨0, 0, [], 1, Band.green⟩], [], [⟨0, 0, [], 1, Band.green⟩]⟩ := by
  have h1 := (c6_failure_atomicity (⟨[], [], [], ⟨1, 1, 0⟩, false, 2⟩ : SensorOptions ℚ)
    ⟨.error "boom", .ok [], .ok [], .ok [], fun _ => .ok [], fun _ => .ok ()⟩
    ⟨0, 0⟩ [] "boom").1 rfl
  have hcore : measureCore (⟨[], [], [], ⟨1, 1, 0⟩, true, 2⟩ : SensorOptions ℚ)
      ⟨.ok [], .ok [], .ok [], .ok [], fun _ => .ok [], fun _ => .error "cb"⟩ ⟨0, 0⟩ =
      (.ok ⟨0, 0, [], 1, Band.green⟩, []) := rfl
  have h2 := (c6_failure_atomicity (⟨[], [], [], ⟨1, 1, 0⟩, true, 2⟩ : SensorOptions ℚ)
    ⟨.ok [], .ok [], .ok [], .ok [], fun _ => .ok [], fun _ => .error "cb"⟩
    ⟨0, 0⟩ [] "cb").2.2.2.2.2.2 ⟨0, 0, [], 1, Band.green⟩ [] hcore rfl rfl
  exact ⟨rfl, h1, hcore, h2⟩

/-! ## Claim C5 -/

theorem jsSetDedup_foldl_mem (l : List String) :
    ∀ acc x, (x ∈ l.foldl (fun a y => if y ∈ a then a else a ++ [y]) acc) ↔ x ∈ acc ∨ x ∈ l := by
  induction l with
  | nil => intro acc x; simp
  | cons y ys ih =>
    intro acc x
    simp only [List.foldl_cons]
    by_cases hy : y ∈ acc
    · rw [if_pos hy, ih]
      constructor
      · rintro (h | h)
        · exact Or.inl h
        · exact Or.inr (List.mem_cons_of_mem _ h)
      · rintro (h | h)
        · exact Or.inl h
        · rcases List.mem_cons.1 h with h | h
          · exact Or.inl (h ▸ hy)
          · exact Or.inr h
    · rw [if_neg hy, ih]
      simp only [List.mem_append, List.mem_singleton, List.mem_cons]
      tauto

theorem jsSetDedup_foldl_nodup_sublist (l : List String) :
    ∀ acc : List String, acc.Nodup →
      (l.foldl (fun a y => if y ∈ a then a else a ++ [y]) acc).Nodup ∧
      ∃ t, l.foldl (fun a y => if y ∈ a then a else a ++ [y]) acc = acc ++ t ∧ t.Sublist l := by
  induction l with
  | nil =>
    intro acc h
    exact ⟨h, [], by simp, List.nil_sublist _⟩
  | cons y ys ih =>
    intro acc h
    simp only [List.foldl_cons]
    by_cases hy : y ∈ acc
    · rw [if_pos hy]
      obtain ⟨hn, t, ht, hs⟩ := ih acc h
      exact ⟨hn, t, ht, hs.cons y⟩
    · rw [if_neg hy]
      have hacc : (acc ++ [y]).Nodup := by
        simp [List.nodup_append, h, hy]
      obtain ⟨hn, t, ht, hs⟩ := ih (acc ++ [y]) hacc
      refine ⟨hn, y :: t, ?_, hs.cons₂ y⟩
      rw [ht, List.append_assoc]
      rfl

theorem jsSetDedup_nodup (l : List String) : (jsSetDedup l).Nodup :=
  (jsSetDedup_foldl_nodup_sublist l [] List.nodup_nil).1

theorem jsSetDedup_sublist (l : List String) : (jsSetDedup l).Sublist l := by
  obtain ⟨-, t, ht, hs⟩ := jsSetDedup_foldl_nodup_sublist l [] List.nodup_nil
  rw [jsSetDedup, ht]
  simpa using hs

theorem jsSetDedup_mem (l : List String) (x : String) : x ∈ jsSetDedup l ↔ x ∈ l := by
  rw [jsSetDedup, jsSetDedup_foldl_mem]
  simp

theorem lookupVec_absent (emap : List (String × Vec K)) (t : String)
    (h : t ∉ emap.map Prod.fst) : lookupVec emap t = [] := by
  unfold lookupVec
  rw [List.find?_eq_none.2 ?_]
  · rfl
  · intro p hp
    simp only [beq_iff_eq]
    intro hEq
    exact h (hEq ▸ List.mem_map_of_mem Prod.fst hp)

theorem lookupVec_zip_get (u : List String) :
    ∀ (es : List (Vec K)) (i : Nat) (hi : i < u.length) (hj : i < es.length), u.Nodup →
      lookupVec (u.zip es) (u.get ⟨i, hi⟩) = es.get ⟨i, hj⟩ := by
  induction u with
  | nil =>
    intro es i hi
    simp at hi
  | cons a u ih =>
    intro es i hi hj hnd
    cases es with
    | nil => simp at hj
    | cons e es =>
      cases i with
      | zero => simp [lookupVec, List.find?]
      | succ i =>
        have hi' : i < u.length := by simpa using hi
        have hj' : i < es.length := by simpa using hj
        have hmem : u.get ⟨i, hi'⟩ ∈ u := List.get_mem u i hi'
        have hna : (a == u.get ⟨i, hi'⟩) = false :=
          beq_eq_false_iff_ne.2 (fun hEq => (List.nodup_cons.1 hnd).1 (hEq ▸ hmem))
        show lookupVec ((a, e) :: u.zip es) (u.get ⟨i, hi'⟩) = es.get ⟨i, hj'⟩
        simp only [lookupVec, List.find?, hna]
        exact ih es i hi' hj' (List.nodup_cons.1 hnd).2

/-- C5: per measurement, the four fetched lists are combined and
deduplicated preserving first-occurrence order (no duplicates, a sublist of
the concatenation, same members); if the deduplicated union is empty the
embedding provider is never invoked, otherwise it is invoked exactly once
with exactly that list; the snapshot is computed from the metric input
built positionally over the zip of the deduplicated list with the returned
vectors, where the i-th deduplicated text resolves to the i-th vector and
any text absent from the lookup resolves to the empty vector. -/
theorem c5_dedup_single_batch [LinearOrderedField K] [DecidableEq K]
    (opts : SensorOptions K) (env : SensorEnv K) (tick : Tick)
    (readings0 : List (CoherenceReading K))
    (goals context goalRelevantMemories allMemories : List String) (u : List String)
    (hg : env.goals = .ok goals) (hc : env.recentContext = .ok context)
    (hgm : env.goalRelevantMemories = .ok goalRelevantMemories)
    (ham : env.allMemories = .ok allMemories)
    (hu : u = jsSetDedup (goals ++ context ++ goalRelevantMemories ++ allMemories)) :
    u.Nodup ∧
    u.Sublist (goals ++ context ++ goalRelevantMemories ++ allMemories) ∧
    (∀ x, x ∈ u ↔ x ∈ goals ++ context ++ goalRelevantMemories ++ allMemories) ∧
    (u = [] → (measure opts env tick readings0).embedCalls = []) ∧
    (u ≠ [] → (measure opts env tick readings0).embedCalls = [u]) ∧
    (∀ embeddings scalarSnapshot, ∀ r : CoherenceReading K, ∀ calls,
      env.embedBatch u = .ok embeddings →
      runScalars opts.scalarMetrics = .ok scalarSnapshot → u ≠ [] →
      measureCore opts env tick = (.ok r, calls) →
      r.metrics = opts.metrics.map (fun m => (m.name, m.compute
        (buildMetricInput (u.zip embeddings) goals context goalRelevantMemories allMemories)))
        ++ scalarSnapshot) ∧
    (∀ embeddings : List (Vec K), ∀ i : Nat, ∀ hi : i < u.length, ∀ hj : i < embeddings.length,
      lookupVec (u.zip embeddings) (u.get ⟨i, hi⟩) = embeddings.get ⟨i, hj⟩) ∧
    (∀ emap : List (String × Vec K), ∀ t, t ∉ emap.map Prod.fst → lookupVec emap t = []) := by
  have hcalls : (measure opts env tick readings0).embedCalls = (measureCore opts env tick).2 :=
    (measure_result_readings opts env tick readings0).2.2
  have hu' : u = jsSetDedup (goals ++ (context ++ (goalRelevantMemories ++ allMemories))) := by
    rw [hu, List.append_assoc, List.append_assoc]
  refine ⟨hu ▸ jsSetDedup_nodup _, hu ▸ jsSetDedup_sublist _,
    fun x => hu ▸ jsSetDedup_mem _ x, ?_, ?_, ?_,
    fun embeddings i hi hj => lookupVec_zip_get u embeddings i hi hj (hu ▸ jsSetDedup_nodup _),
    fun emap t ht => lookupVec_absent emap t ht⟩
  · intro hd
    rw [hcalls]
    rcases hscE : runScalars opts.scalarMetrics with e | s <;>
      simp [measureCore, hg, hc, hgm, ham, ← hu', hd, hscE]
  · intro hd
    rw [hcalls]
    rcases hemb : env.embedBatch u with e | embeddings <;>
      rcases hscE : runScalars opts.scalarMetrics with e2 | s <;>
      simp [measureCore, hg, hc, hgm, ham, ← hu', hd, hemb, hscE, Except.map]
  · intro embeddings scalarSnapshot r calls hemb hsc hd hcore
    simp only [measureCore, hg, hc, hgm, ham, ← hu, List.length_eq_zero, hd,
      ite_false, if_false, hemb, hsc, Except.map] at hcore
    simp only [Prod.mk.injEq] at hcore
    obtain ⟨h1, h2⟩ := hcore
    cases h1
    rfl

/-- C5 witness: a concrete measurement whose four lists share texts; the
deduplicated union is `["a", "b"]` and the provider is called exactly once
with it. -/
theorem c5_witness :
    ((⟨.ok ["a", "b"], .ok ["b"], .ok [], .ok ["a"], fun ts => .ok (ts.map (fun _ => [1])),
        fun _ => .ok ()⟩ : SensorEnv ℚ).goals = .ok ["a", "b"]) ∧
    (["a", "b"] : List String) = jsSetDedup (["a", "b"] ++ ["b"] ++ [] ++ ["a"]) ∧
    (measure (⟨[], [], [], ⟨1, 1, 0⟩, false, 2⟩ : SensorOptions ℚ)
      ⟨.ok ["a", "b"], .ok ["b"], .ok [], .ok ["a"], fun ts => .ok (ts.map (fun _ => [1])),
        fun _ => .ok ()⟩ ⟨0, 0⟩ []).embedCalls = [["a", "b"]] := by
  have h := c5_dedup_single_batch (⟨[], [], [], ⟨1, 1, 0⟩, false, 2⟩ : SensorOptions ℚ)
    ⟨.ok ["a", "b"], .ok ["b"], .ok [], .ok ["a"], fun ts => .ok (ts.map (fun _ => [1])),
      fun _ => .ok ()⟩ ⟨0, 0⟩ [] ["a", "b"] ["b"] [] ["a"] ["a", "b"] rfl rfl rfl rfl rfl
  exact ⟨rfl, rfl, h.2.2.2.2.1 (by decide)⟩

end Interoception
